import Mathlib

/-!
Shallow embedding of the IIB build-request lifecycle engine:
`src/iib/web/models.py` (image catalog, request state machine, JSON
projection, request construction) and `src/iib/workers/tasks/utils.py`
(retry policy, external command runner).

Modelling conventions:
* SQLAlchemy's session is modelled as an explicit `Db` value threaded
  through the operations; `db.session.add` plus `flush` becomes an
  append to the corresponding list together with a fresh-id counter
  bump, and a Python `raise` becomes `Except.error`, so an error result
  leaves the caller's `Db`/`Request` values untouched exactly as a
  raise before any mutation does in the source.
* `RequestState.updated` (a `DateTime` defaulting to `now()`) is
  modelled as a `Nat` drawn from a strictly increasing clock in `Db`,
  so the `states` relationship (ordered by `updated`) coincides with
  append order, matching the spec's monotone-timestamp assumption.
* Python dicts that the code builds for JSON output are modelled as
  association lists `List (String × JVal)`; `dict.update` is
  `pyDictUpdate` below.
-/

namespace Iib

/-- Models `iib.exceptions.ValidationError` (carries only its message). -/
structure ValidationError where
  msg : String
deriving DecidableEq, Repr

/-- Models `iib.exceptions.IIBError` (carries only its message). -/
structure IIBError where
  msg : String
deriving DecidableEq, Repr

/-- Models the `Image` ORM model: `id`, unique `pull_specification`, and the
`architectures` relationship (architecture names, ordered by name). -/
structure Image where
  id : Nat
  pull_specification : String
  architectures : List String
deriving DecidableEq, Repr

/-- Models a request state row (`RequestState` ORM model): `id`,
`state` (an integer from `RequestStateMapping`), `state_reason`, and the
`updated` timestamp. -/
structure RequestState where
  id : Nat
  state : Nat
  state_reason : String
  updated : Nat
deriving DecidableEq, Repr

/-- The database session state threaded through the operations: staged
`Image` rows, fresh-id counters for images and request states (ids are
assigned by `db.session.flush`), and the clock supplying `updated`
timestamps. -/
structure Db where
  images : List Image
  nextImageId : Nat
  nextStateId : Nat
  clock : Nat
deriving DecidableEq, Repr

/-- The empty session: no staged rows, counters at zero. -/
def emptyDb : Db := ⟨[], 0, 0, 0⟩

/-- Models `Image.get_or_create(pull_specification)`: reject a pull
specification with neither a digest separator `@` nor a tag separator `:`
(Python's `'@' not in s and ':' not in s`; for single characters, Python
substring containment is character containment, modelled on the string's
character list); otherwise return the first existing row with that pull
specification, or stage a new row with a fresh id. -/
def Image.get_or_create (db : Db) (pull_specification : String) :
    Except ValidationError (Image × Db) :=
  if !pull_specification.data.contains '@' && !pull_specification.data.contains ':' then
    .error ⟨"Image " ++ pull_specification ++ " should have a tag or a digest specified."⟩
  else
    match db.images.find? (fun img => img.pull_specification == pull_specification) with
    | some image => .ok (image, db)
    | none =>
      let image : Image := ⟨db.nextImageId, pull_specification, []⟩
      .ok (image, { db with images := db.images ++ [image], nextImageId := db.nextImageId + 1 })

/-- The number of staged `Image` rows carrying the pull specification `t`. -/
def specCount (t : String) (images : List Image) : Nat :=
  (images.filter (fun img => img.pull_specification == t)).length

/-- Models `RequestStateMapping.__members__[state].value`: the integer value
of a state name (`in_progress = 1`, `complete = 2`, `failed = 3`), `none`
for the `KeyError` on an unknown name. -/
def RequestStateMapping.membersValue (state : String) : Option Nat :=
  if state == "in_progress" then some 1
  else if state == "complete" then some 2
  else if state == "failed" then some 3
  else none

/-- Models `RequestStateMapping(value).name`: the state name of an integer
value, `none` for the `ValueError` on an integer outside the enum. -/
def RequestStateMapping.name (value : Nat) : Option String :=
  if value == 1 then some "in_progress"
  else if value == 2 then some "complete"
  else if value == 3 then some "failed"
  else none

/-- Models the `RequestState.state_name` property: `None` when the stored
integer is falsy (`0`), otherwise the enum name of the integer (`none` also
stands for the `ValueError` an out-of-enum integer would raise; every state
row created by `add_state` carries a valid integer). -/
def RequestState.state_name (rs : RequestState) : Option String :=
  if rs.state != 0 then RequestStateMapping.name rs.state else none

/-- Models the `Request` ORM model: the image relationships, the `type`
integer (`RequestTypeMapping`), the optional `user` (by username), the
`states` relationship (ordered by `updated`, which the monotone clock makes
equal to append order), and the `request_state_id` current-state pointer. -/
structure Request where
  id : Option Nat
  binary_image : Image
  binary_image_resolved : Option Image
  from_index : Option Image
  from_index_resolved : Option Image
  index_image : Option Image
  bundles : List Image
  type : Nat
  user : Option String
  states : List RequestState
  request_state_id : Option Nat
deriving DecidableEq, Repr

/-- Models the `Request.state` relationship: the `RequestState` row whose id
the `request_state_id` foreign key holds, `none` when the pointer is unset. -/
def Request.state (req : Request) : Option RequestState :=
  req.request_state_id.bind (fun i => req.states.find? (fun rs => rs.id == i))

/-- The name of the request's current state (`self.state.state_name` guarded
by `self.state` being present), as tested by the terminal guard. -/
def Request.currentStateName (req : Request) : Option String :=
  match req.state with
  | some cur => cur.state_name
  | none => none

/-- Models `Request.add_state(state, state_reason)`: translate the state name
through the enum (unknown name raises `ValidationError`); for `s` in
`('complete', 'failed')`, if the current state's name is `s` and the requested
state differs, raise `ValidationError`; otherwise append a fresh
`RequestState` row (id assigned by `flush`, timestamp from the clock) to the
`states` history and repoint `request_state_id` at it. Returns the updated
request, session and the new row. -/
def Request.add_state (req : Request) (db : Db) (state state_reason : String) :
    Except ValidationError (Request × Db × RequestState) :=
  match RequestStateMapping.membersValue state with
  | none =>
    .error ⟨"The state \"" ++ state ++
      "\" is invalid. It must be one of: complete, failed, in_progress."⟩
  | some state_int =>
    if req.currentStateName == some "complete" && state != "complete" then
      .error ⟨"A complete request cannot change states"⟩
    else if req.currentStateName == some "failed" && state != "failed" then
      .error ⟨"A failed request cannot change states"⟩
    else
      let request_state : RequestState :=
        ⟨db.nextStateId, state_int, state_reason, db.clock⟩
      let req' : Request :=
        { req with
          states := req.states ++ [request_state]
          request_state_id := some request_state.id }
      let db' : Db := { db with nextStateId := db.nextStateId + 1, clock := db.clock + 1 }
      .ok (req', db', request_state)

/-- Runs a sequence of `add_state` calls (state name, reason) in order,
stopping at the first raised `ValidationError`. -/
def runAddStates : Request → Db → List (String × String) →
    Except ValidationError (Request × Db)
  | req, db, [] => .ok (req, db)
  | req, db, (s, r) :: rest =>
    match req.add_state db s r with
    | .error e => .error e
    | .ok (req', db', _) => runAddStates req' db' rest

/-- A JSON value as produced by `Request.to_json`. -/
inductive JVal where
  | s (v : String)
  | n (v : Nat)
  | null
  | arr (vs : List JVal)
  | obj (kvs : List (String × JVal))
deriving Repr

/-- Models Python `dict.update(u)` on insertion-ordered dicts represented as
association lists: existing keys keep their position and take the new value,
keys new to `d` are appended in `u`'s order. -/
def pyDictUpdate (d u : List (String × JVal)) : List (String × JVal) :=
  (d.map (fun kv => match u.lookup kv.1 with
    | some v => (kv.1, v)
    | none => kv)) ++
    u.filter (fun kv => (d.lookup kv.1).isNone)

/-- Models the nested `_state_to_json` helper of `Request.to_json`: the
state's enum name, reason, and `isoformat() + 'Z'` timestamp (the ISO
rendering of the modelled clock value is `toString` of it). `none` stands
for the `ValueError` raised on an out-of-enum state integer. -/
def _state_to_json (state : RequestState) : Option (List (String × JVal)) :=
  match RequestStateMapping.name state.state with
  | none => none
  | some nm =>
    some [("state", .s nm),
          ("state_reason", .s state.state_reason),
          ("updated", .s (toString state.updated ++ "Z"))]

/-- The list comprehension `[_state_to_json(state) for state in self.states]`:
each element is rendered in order, the first failure aborting the whole
projection. -/
def _state_list_to_json : List RequestState → Option (List (List (String × JVal)))
  | [] => some []
  | rs :: rest =>
    match _state_to_json rs with
    | none => none
    | some p =>
      match _state_list_to_json rest with
      | none => none
      | some ps => some (p :: ps)

/-- The pull specification of an optional image relationship
(`getattr(img, 'pull_specification', None)`). -/
def optSpec : Option Image → JVal
  | some img => .s img.pull_specification
  | none => .null

/-- The initial `rv` dict of `Request.to_json`: the flat request fields. -/
def requestFlatFields (req : Request) : List (String × JVal) :=
  [("id", match req.id with | some i => .n i | none => .null),
   ("arches", .arr ((match req.index_image with
      | some img => img.architectures
      | none => []).map JVal.s)),
   ("binary_image", .s req.binary_image.pull_specification),
   ("binary_image_resolved", optSpec req.binary_image_resolved),
   ("bundles", .arr (req.bundles.map (fun b => JVal.s b.pull_specification))),
   ("from_index", optSpec req.from_index),
   ("from_index_resolved", optSpec req.from_index_resolved),
   ("index_image", optSpec req.index_image),
   ("user", match req.user with | some u => .s u | none => .null)]

/-- Models `Request.to_json(verbose)`: the flat dict of request fields; in
verbose mode the full history is rendered, reversed (latest first), stored
under `state_history`, and the newest entry is merged into the flat fields
via `dict.update`; otherwise the current state's fields are merged. `none`
stands for the exceptions the source raises on an empty history (`states[0]`)
or a missing/invalid current state. -/
def Request.to_json (req : Request) (verbose : Bool) : Option (List (String × JVal)) :=
  let rv := requestFlatFields req
  if verbose then
    match _state_list_to_json req.states with
    | none => none
    | some stjs =>
      let states := stjs.reverse
      let rv' := rv ++ [("state_history", .arr (states.map JVal.obj))]
      match states.head? with
      | none => none
      | some latest_state => some (pyDictUpdate rv' latest_state)
  else
    match req.state with
    | none => none
    | some cur =>
      match _state_to_json cur with
      | none => none
      | some pairs => some (pyDictUpdate rv pairs)

/-- A JSON payload value handed to `Request.from_json` (strings, arrays, or
`null`, which is all the construction path distinguishes). -/
inductive PyVal where
  | str (s : String)
  | list (xs : List PyVal)
  | nullV
deriving Repr

/-- Python truthiness of a payload value: non-empty strings and non-empty
lists are truthy, `None` is falsy. -/
def pyTruthy : PyVal → Bool
  | .str s => s != ""
  | .list xs => !xs.isEmpty
  | .nullV => false

/-- Truthiness of `kwargs.get(key)`: an absent key yields `None` (falsy). -/
def pyGetTruthy : Option PyVal → Bool
  | some v => pyTruthy v
  | none => false

/-- The construction payload: `kwargs` restricted to the five allowed keys
(`bundles` and `binary_image` required, `from_index`, `add_arches` and
`cnr_token` optional), each `none` when absent. The invalid-parameters check
of the source rejects any other key, so a payload with an extra key never
reaches the rest of the code and is not representable here. -/
structure RequestPayload where
  bundles : Option PyVal
  binary_image : Option PyVal
  from_index : Option PyVal
  add_arches : Option PyVal
  cnr_token : Option PyVal
deriving Repr

/-- The `add_arches` validation of `from_json`: it must be a list whose
every element is a truthy string (`not isinstance(add_arches, list) or
any(not arch or not isinstance(arch, str) for arch in add_arches)` raises). -/
def validArchList : PyVal → Bool
  | .list xs => xs.all (fun a => match a with | .str s => s != "" | _ => false)
  | _ => false

/-- The `bundles` validation of `from_json`: a non-empty list whose every
element is a truthy string. -/
def validBundles : PyVal → Bool
  | .list xs =>
    !xs.isEmpty && xs.all (fun b => match b with | .str s => s != "" | _ => false)
  | _ => false

/-- The strings of a payload list value (exactly its elements once the list
has passed `validArchList`/`validBundles`). -/
def pyStrList : PyVal → List String
  | .list xs => xs.filterMap (fun v => match v with | .str s => some s | _ => none)
  | _ => []

/-- Resolves a list of pull specifications left to right through
`Image.get_or_create`, threading the session, propagating the first raised
`ValidationError` (the list comprehension over `bundles`). -/
def getOrCreateList (db : Db) : List String → Except ValidationError (List Image × Db)
  | [] => .ok ([], db)
  | s :: rest =>
    match Image.get_or_create db s with
    | .error e => .error e
    | .ok (img, db') =>
      match getOrCreateList db' rest with
      | .error e => .error e
      | .ok (imgs, db'') => .ok (img :: imgs, db'')

/-- The missing required parameters message of `from_json` (the required
keys absent from the payload; the source iterates a Python set, whose order
is unspecified — this model lists `bundles` before `binary_image`). -/
def missingParamsMsg (kwargs : RequestPayload) : String :=
  "Missing required parameter(s): " ++
    String.intercalate ", "
      ((if kwargs.bundles.isNone then ["bundles"] else []) ++
       (if kwargs.binary_image.isNone then ["binary_image"] else []))

/-- The tail of `Request.from_json` after `add_arches` has been popped,
validated and discarded: validate and resolve `bundles` and `binary_image`,
validate and resolve `from_index`, validate `cnr_token` (popped and never
stored), attach the authenticated user, set `type` to the `add` enum value,
build the `Request` and run the initial `add_state`. `add_arches` does not
occur below this point in the source. -/
def fromJsonRest (bundlesV binary_imageV from_indexV cnr_tokenV : Option PyVal)
    (current_user : Option String) (db : Db) :
    Except ValidationError (Request × Db) :=
  match bundlesV with
  | none => .error ⟨"Missing required parameter(s): bundles"⟩
  | some bundlesVal =>
    if !validBundles bundlesVal then
      .error ⟨"\"bundles\" should be a non-empty array of strings"⟩
    else
      match binary_imageV with
      | none => .error ⟨"Missing required parameter(s): binary_image"⟩
      | some binaryVal =>
        match binaryVal with
        | .str binary_image =>
          if binary_image == "" then
            .error ⟨"\"binary_image\" should be a non-empty string"⟩
          else
            match getOrCreateList db (pyStrList bundlesVal) with
            | .error e => .error e
            | .ok (bundleImages, db1) =>
              match Image.get_or_create db1 binary_image with
              | .error e => .error e
              | .ok (binaryImage, db2) =>
                let fromIndexStep : Except ValidationError (Option Image × Db) :=
                  match from_indexV with
                  | some v =>
                    if pyTruthy v then
                      match v with
                      | .str s =>
                        match Image.get_or_create db2 s with
                        | .error e => .error e
                        | .ok (img, db3) => .ok (some img, db3)
                      | _ => .error ⟨"\"from_index\" must be a string"⟩
                    else .ok (none, db2)
                  | none => .ok (none, db2)
                match fromIndexStep with
                | .error e => .error e
                | .ok (fromIndexImage, db3) =>
                  let cnrBad : Bool :=
                    match cnr_tokenV with
                    | some v => pyTruthy v && (match v with | .str _ => false | _ => true)
                    | none => false
                  if cnrBad then .error ⟨"\"cnr_token\" must be a string"⟩
                  else
                    let request : Request :=
                      { id := none
                        binary_image := binaryImage
                        binary_image_resolved := none
                        from_index := fromIndexImage
                        from_index_resolved := none
                        index_image := none
                        bundles := bundleImages
                        type := 1
                        user := current_user
                        states := []
                        request_state_id := none }
                    match request.add_state db3 "in_progress" "The request was initiated" with
                    | .error e => .error e
                    | .ok (request', db4, _) => .ok (request', db4)
        | _ => .error ⟨"\"binary_image\" should be a non-empty string"⟩

/-- Models `Request.from_json(kwargs)`: reject missing required parameters;
require at least one of `from_index` or `add_arches` to be truthy; validate
(and then discard) `add_arches`; then run the rest of the construction
(`fromJsonRest`). The ambient `current_user` is passed explicitly (its
username, `none` when unauthenticated). -/
def Request.from_json (kwargs : RequestPayload) (current_user : Option String)
    (db : Db) : Except ValidationError (Request × Db) :=
  if kwargs.bundles.isNone || kwargs.binary_image.isNone then
    .error ⟨missingParamsMsg kwargs⟩
  else if !pyGetTruthy kwargs.from_index && !pyGetTruthy kwargs.add_arches then
    .error ⟨"One of \"from_index\" or \"add_arches\" must be specified"⟩
  else if !validArchList (kwargs.add_arches.getD (.list [])) then
    .error ⟨"\"add_arches\" should be an array of strings"⟩
  else
    fromJsonRest kwargs.bundles kwargs.binary_image kwargs.from_index
      kwargs.cnr_token current_user db

/-- Decidable equality of `Except` results (absent from the library). -/
instance instDecEqExcept {ε α : Type} [DecidableEq ε] [DecidableEq α] :
    DecidableEq (Except ε α)
  | .ok a, .ok b =>
    if h : a = b then .isTrue (congrArg Except.ok h)
    else .isFalse (fun hc => h (Except.ok.inj hc))
  | .ok _, .error _ => .isFalse (fun hc => Except.noConfusion hc)
  | .error _, .ok _ => .isFalse (fun hc => Except.noConfusion hc)
  | .error e, .error f =>
    if h : e = f then .isTrue (congrArg Except.error h)
    else .isFalse (fun hc => h (Except.error.inj hc))

/-- The observable outcome of running a `retry`-wrapped operation: the final
result (the re-raised exception or the returned value), how many times the
wrapped operation was invoked, and how many warning-level and error-level
log events were emitted. -/
structure RetryResult (ε α : Type) where
  result : Except ε α
  invocations : Nat
  warnings : Nat
  errors : Nat
deriving DecidableEq, Repr

/-- The `while True` loop of `retry`'s `inner`, with the operation modelled
as the outcome of its `i`-th invocation and only the designated retryable
error class representable (a non-retryable exception propagates through the
`except wait_on` clause untouched, which no claim exercises). `remaining`
models `max(remaining_attempts, 0)`: the source decrements the integer
counter and re-raises when it reaches `<= 0`, i.e. when the value before the
decrement was `<= 1`, which for the truncation is `remaining <= 1`. On a
retryable failure with attempts left, a warning is logged (when a logger is
present) and the loop repeats; on exhaustion an error is logged (when a
logger is present) and the same exception is re-raised. -/
def retryLoop (f : Nat → Except ε α) (haveLogger : Bool) (i : Nat) (remaining : Nat) :
    RetryResult ε α :=
  match f i with
  | .ok a => ⟨.ok a, 1, 0, 0⟩
  | .error e =>
    if remaining ≤ 1 then
      ⟨.error e, 1, 0, if haveLogger then 1 else 0⟩
    else
      let rest := retryLoop f haveLogger (i + 1) (remaining - 1)
      ⟨rest.result, rest.invocations + 1,
        rest.warnings + (if haveLogger then 1 else 0), rest.errors⟩
  termination_by remaining
  decreasing_by omega

/-- Models calling a function decorated with `retry(attempts=attempts,
wait_on=ε, logger=...)`: run the loop with `remaining_attempts = attempts`
(an arbitrary integer; the loop only compares it against zero, so its
truncation to `Nat` is faithful). -/
def retry (attempts : Int) (haveLogger : Bool) (f : Nat → Except ε α) : RetryResult ε α :=
  retryLoop f haveLogger 0 attempts.toNat

/-- A completed external process as `subprocess.run` reports it. -/
structure CompletedProcess where
  returncode : Int
  stdout : String
  stderr : String
deriving DecidableEq, Repr

/-- Splits a character list on `'\n'` into the (possibly empty) groups
between newlines; the empty input yields one empty group. -/
def splitCharsOnNl : List Char → List (List Char)
  | [] => [[]]
  | c :: cs =>
    if c = '\n' then [] :: splitCharsOnNl cs
    else
      match splitCharsOnNl cs with
      | [] => [[c]]
      | g :: gs => (c :: g) :: gs

/-- Models Python `str.splitlines()` for newline-separated text: split on
`'\n'`, with no trailing empty piece for a trailing newline and `[]` for the
empty string (the source applies it to captured stderr; the exotic extra
line boundaries Python also recognizes are not modelled). -/
def splitlines (s : String) : List String :=
  if s.data = [] then []
  else if s.data.getLast? = some '\n' then
    ((splitCharsOnNl s.data).map String.mk).dropLast
  else (splitCharsOnNl s.data).map String.mk

/-- Models Python `str.rstrip('.')`: remove every trailing `'.'`. -/
def rstripDots (s : String) : String :=
  String.mk (s.data.reverse.dropWhile (fun c => c == '.')).reverse

/-- Whether `pat` occurs in `cs` starting at index `i`. -/
def matchesAt (pat cs : List Char) (i : Nat) : Bool :=
  pat.isPrefixOf (cs.drop i)

/-- Models `re.match(r'^(?:.+level=fatal .*error=")(.+)(?:")$', line)` and
its captured group, under Python's leftmost-greedy semantics: the line must
end in `'"'`, and there must be an occurrence of `error="` at some `j` with
at least one character between it and the final quote (`j + 9 ≤ n`),
preceded (at distance allowing the literal, `i + 12 ≤ j`) by an occurrence
of `level=fatal ` at some `i ≥ 1` (the leading `.+` consumes at least one
character). Greedy backtracking selects the largest such `j`, and the
capture is everything strictly between that `error="` and the final quote. -/
def opmFatalCapture (line : String) : Option String :=
  let cs := line.data
  let n := cs.length
  if cs.getLast? == some '"' then
    match (List.range n).reverse.find? (fun j =>
        matchesAt "error=\"".data cs j && decide (j + 9 ≤ n) &&
        (List.range j).any (fun i =>
          decide (1 ≤ i) && decide (i + 12 ≤ j) &&
          matchesAt "level=fatal ".data cs i)) with
    | some j => some (String.mk ((cs.drop (j + 7)).take (n - 1 - (j + 7))))
    | none => none
  else none

/-- The `for msg in reversed(response.stderr.splitlines())` loop body of
`run_cmd`: the first line (in the given order) whose fatal-error capture
matches, and that capture. -/
def findFatal : List String → Option String
  | [] => none
  | msg :: rest =>
    match opmFatalCapture msg with
    | some m => some m
    | none => findFatal rest

/-- Models the `exc_msg = exc_msg or 'An unexpected error occurred'`
defaulting (an absent or empty message falls back to the default). -/
def excMsgOrDefault : Option String → String
  | some s => if s == "" then "An unexpected error occurred" else s
  | none => "An unexpected error occurred"

/-- Models `run_cmd(cmd, exc_msg=...)` applied to the completed process: on
a zero exit return stdout; on a non-zero exit of an `opm` command scan the
stderr lines from last to first and, at the first fatal-error match, raise
`IIBError` with the (dot-stripped) failure message joined to the capture by
`": "`; otherwise raise `IIBError` with the failure message alone. -/
def runCmd (cmd : List String) (exc_msg : Option String)
    (response : CompletedProcess) : Except IIBError String :=
  let excMsg := excMsgOrDefault exc_msg
  if response.returncode != 0 then
    if cmd.head? == some "opm" then
      match findFatal (splitlines response.stderr).reverse with
      | some m => .error ⟨rstripDots excMsg ++ ": " ++ m⟩
      | none => .error ⟨excMsg⟩
    else .error ⟨excMsg⟩
  else .ok response.stdout

/-! ## Theorems -/

/-- Claim C7: for every string `s` that contains neither `':'` nor `'@'`,
`Image.get_or_create s` fails with `ValidationError` and does not create or
stage any `Image` record (the error is raised before any session mutation,
so the caller's session is untouched). -/
theorem get_or_create_rejects_missing_tag (db : Db) (s : String)
    (hat : '@' ∉ s.data) (hcolon : ':' ∉ s.data) :
    Image.get_or_create db s =
      .error ⟨"Image " ++ s ++ " should have a tag or a digest specified."⟩ := by
  simp [Image.get_or_create, hat, hcolon]

/-- Witness for C7 at the spec's own example `"myimage"`. -/
theorem get_or_create_rejects_missing_tag_witness :
    Image.get_or_create emptyDb "myimage" =
      .error ⟨"Image myimage should have a tag or a digest specified."⟩ :=
  get_or_create_rejects_missing_tag emptyDb "myimage" (by decide) (by decide)

/-- Claim C8: for every string `s` containing a tag or digest separator, two
sequential `Image.get_or_create s` calls return the same `Image` identity
(the second call returns the very same record and leaves the session
unchanged), and the call preserves at-most-one-record-per-pull-specification
in the catalog. -/
theorem get_or_create_idempotent (db : Db) (s : String)
    (hs : ':' ∈ s.data ∨ '@' ∈ s.data) :
    ∃ img db', Image.get_or_create db s = .ok (img, db') ∧
      Image.get_or_create db' s = .ok (img, db') ∧
      ∀ t, specCount t db.images ≤ 1 → specCount t db'.images ≤ 1 := by
  have hcond : '@' ∉ s.data → ':' ∈ s.data := fun h =>
    hs.elim id (fun ha => absurd ha h)
  cases hfind : db.images.find? (fun img => img.pull_specification == s) with
  | some image =>
    refine ⟨image, db, ?_, ?_, fun t ht => ht⟩ <;>
      simp [Image.get_or_create, hfind] <;> exact hcond
  | none =>
    have hnone : ∀ img ∈ db.images, (img.pull_specification == s) = false := by
      intro img himg
      have := List.find?_eq_none.mp hfind img himg
      simpa using this
    refine ⟨⟨db.nextImageId, s, []⟩,
      { db with images := db.images ++ [⟨db.nextImageId, s, []⟩],
                nextImageId := db.nextImageId + 1 }, ?_, ?_, ?_⟩
    · simp [Image.get_or_create, hfind]
      exact hcond
    · have happ : (db.images ++ [(⟨db.nextImageId, s, []⟩ : Image)]).find?
          (fun img => img.pull_specification == s) = some ⟨db.nextImageId, s, []⟩ := by
        rw [List.find?_append, hfind]
        simp
      simp [Image.get_or_create, happ]
      exact hcond
    · intro t ht
      by_cases hts : t = s
      · subst hts
        have hzero : db.images.filter (fun img => img.pull_specification == t) = [] := by
          refine List.filter_eq_nil_iff.mpr ?_
          intro img himg
          simp [hnone img himg]
        simp [specCount, List.filter_append, hzero]
      · have hne : ((⟨db.nextImageId, s, []⟩ : Image).pull_specification == t) = false := by
          simpa using Ne.symm hts
        simpa [specCount, List.filter_append, hne] using ht

/-- Witness for C8 at the concrete pull specification `"a:b"`. -/
theorem get_or_create_idempotent_witness :
    ∃ img db', Image.get_or_create emptyDb "a:b" = .ok (img, db') ∧
      Image.get_or_create db' "a:b" = .ok (img, db') ∧
      ∀ t, specCount t emptyDb.images ≤ 1 → specCount t db'.images ≤ 1 :=
  get_or_create_idempotent emptyDb "a:b" (Or.inl (by decide))

/-- Claim C1: for every request whose current state is terminal (`complete`
or `failed`), `add_state` with a different state name fails with a
`ValidationError` (and, the raise preceding any mutation, the history is
left unchanged), while `add_state` with the same terminal name and any
reason succeeds and appends a new history row carrying the new reason, the
existing rows untouched. -/
theorem add_state_terminal_guard (req : Request) (db : Db) (n : String)
    (hn : n = "complete" ∨ n = "failed")
    (hcur : req.currentStateName = some n) :
    (∀ s r, s ≠ n → ∃ e, req.add_state db s r = .error e) ∧
    (∀ r, ∃ req' db' rs, req.add_state db n r = .ok (req', db', rs) ∧
      req'.states = req.states ++ [rs] ∧ rs.state_reason = r) := by
  rcases hn with hn | hn <;> subst hn
  · refine ⟨fun s r hs => ?_, fun r => ?_⟩
    · have hs' : (s != "complete") = true := by simpa using hs
      cases hm : RequestStateMapping.membersValue s with
      | none =>
        exact ⟨⟨"The state \"" ++ s ++
          "\" is invalid. It must be one of: complete, failed, in_progress."⟩,
          by simp [Request.add_state, hm]⟩
      | some v =>
        exact ⟨⟨"A complete request cannot change states"⟩,
          by simp [Request.add_state, hm, hcur, hs']⟩
    · refine ⟨{ req with states := req.states ++ [⟨db.nextStateId, 2, r, db.clock⟩],
                         request_state_id := some db.nextStateId },
              { db with nextStateId := db.nextStateId + 1, clock := db.clock + 1 },
              ⟨db.nextStateId, 2, r, db.clock⟩, ?_, rfl, rfl⟩
      simp [Request.add_state, RequestStateMapping.membersValue, hcur]
  · refine ⟨fun s r hs => ?_, fun r => ?_⟩
    · have hs' : (s != "failed") = true := by simpa using hs
      cases hm : RequestStateMapping.membersValue s with
      | none =>
        exact ⟨⟨"The state \"" ++ s ++
          "\" is invalid. It must be one of: complete, failed, in_progress."⟩,
          by simp [Request.add_state, hm]⟩
      | some v =>
        exact ⟨⟨"A failed request cannot change states"⟩,
          by simp [Request.add_state, hm, hcur, hs']⟩
    · refine ⟨{ req with states := req.states ++ [⟨db.nextStateId, 3, r, db.clock⟩],
                         request_state_id := some db.nextStateId },
              { db with nextStateId := db.nextStateId + 1, clock := db.clock + 1 },
              ⟨db.nextStateId, 3, r, db.clock⟩, ?_, rfl, rfl⟩
      simp [Request.add_state, RequestStateMapping.membersValue, hcur]

/-- A staged image shared by the concrete sample requests below. -/
def sampleImage : Image := ⟨0, "quay.io/ns/opm:v1", []⟩

/-- A concrete request whose current state is `complete`. -/
def completeRequest : Request :=
  { id := none, binary_image := sampleImage, binary_image_resolved := none,
    from_index := none, from_index_resolved := none, index_image := none,
    bundles := [], type := 1, user := none,
    states := [⟨0, 2, "done", 0⟩], request_state_id := some 0 }

/-- The session state accompanying `completeRequest`. -/
def dbAfterComplete : Db := ⟨[sampleImage], 1, 1, 1⟩

/-- Witness for C1 on a concrete `complete` request: transitioning to
`in_progress` raises, re-adding `complete` with a new reason appends. -/
theorem add_state_terminal_guard_witness :
    completeRequest.currentStateName = some "complete" ∧
    (∃ e, completeRequest.add_state dbAfterComplete "in_progress" "x" = .error e) ∧
    (∃ req' db' rs,
      completeRequest.add_state dbAfterComplete "complete" "new reason" = .ok (req', db', rs) ∧
      req'.states = completeRequest.states ++ [rs] ∧ rs.state_reason = "new reason") :=
  ⟨by decide,
   (add_state_terminal_guard completeRequest dbAfterComplete "complete"
     (Or.inl rfl) (by decide)).1 "in_progress" "x" (by decide),
   (add_state_terminal_guard completeRequest dbAfterComplete "complete"
     (Or.inl rfl) (by decide)).2 "new reason"⟩

/-- The exact shape of every successful `add_state` call: the appended row
carries the fresh id, the translated state integer, the given reason and the
clock value, and the pointer is repointed at it. -/
theorem add_state_ok_shape (req : Request) (db : Db) (s r : String) (req' : Request)
    (db' : Db) (rs : RequestState) (h : req.add_state db s r = .ok (req', db', rs)) :
    ∃ v, RequestStateMapping.membersValue s = some v ∧
      rs = ⟨db.nextStateId, v, r, db.clock⟩ ∧
      req' = { req with states := req.states ++ [rs],
                        request_state_id := some rs.id } ∧
      db' = { db with nextStateId := db.nextStateId + 1, clock := db.clock + 1 } := by
  unfold Request.add_state at h
  split at h
  · simp at h
  · split at h
    · simp at h
    · split at h
      · simp at h
      · rename_i v hm _ _
        rw [Except.ok.injEq] at h
        obtain ⟨h1, h23⟩ := Prod.mk.injEq .. |>.mp h
        obtain ⟨h2, h3⟩ := Prod.mk.injEq .. |>.mp h23
        subst h1 h2 h3
        exact ⟨v, hm, rfl, rfl, rfl⟩

/-- Every successful `add_state` call preserves the bookkeeping invariant:
ids of history rows are below the session's fresh-id counter, and the
current-state pointer resolves to the last history row. -/
theorem add_state_ok_inv (req : Request) (db : Db) (s r : String) (req' : Request)
    (db' : Db) (rs : RequestState)
    (hlt : ∀ x ∈ req.states, x.id < db.nextStateId)
    (h : req.add_state db s r = .ok (req', db', rs)) :
    (∀ x ∈ req'.states, x.id < db'.nextStateId) ∧
      req'.state = req'.states.getLast? ∧
      req'.states.length = req.states.length + 1 := by
  obtain ⟨v, hm, hrs, hreq, hdb⟩ := add_state_ok_shape req db s r req' db' rs h
  subst hreq hdb
  refine ⟨?_, ?_, by simp⟩
  · intro x hx
    rcases List.mem_append.mp hx with hx | hx
    · exact Nat.lt_succ_of_lt (hlt x hx)
    · simp only [List.mem_singleton] at hx
      subst hx
      rw [hrs]
      exact Nat.lt_succ_self _
  · have hnone : req.states.find? (fun x => x.id == rs.id) = none := by
      refine List.find?_eq_none.mpr (fun x hx => ?_)
      have : x.id ≠ rs.id := by
        rw [hrs]
        exact Nat.ne_of_lt (hlt x hx)
      simpa using this
    show Request.state _ = _
    rw [List.getLast?_concat]
    simp [Request.state, List.find?_append, hnone]

/-- Running any command sequence through `runAddStates` preserves the
invariant and appends one history row per successful call. -/
theorem runAddStates_inv (cmds : List (String × String)) :
    ∀ req db req' db', (∀ x ∈ req.states, x.id < db.nextStateId) →
      req.state = req.states.getLast? →
      runAddStates req db cmds = .ok (req', db') →
      (∀ x ∈ req'.states, x.id < db'.nextStateId) ∧
        req'.state = req'.states.getLast? ∧
        req'.states.length = req.states.length + cmds.length := by
  induction cmds with
  | nil =>
    intro req db req' db' hlt hptr h
    simp only [runAddStates, Except.ok.injEq] at h
    obtain ⟨h1, h2⟩ := Prod.mk.injEq .. |>.mp h
    subst h1 h2
    exact ⟨hlt, hptr, by simp⟩
  | cons c rest ih =>
    intro req db req' db' hlt hptr h
    simp only [runAddStates] at h
    cases hstep : req.add_state db c.1 c.2 with
    | error e => rw [hstep] at h; simp at h
    | ok out =>
      obtain ⟨req₁, db₁, rs₁⟩ := out
      rw [hstep] at h
      obtain ⟨hlt₁, hptr₁, hlen₁⟩ :=
        add_state_ok_inv req db c.1 c.2 req₁ db₁ rs₁ hlt hstep
      obtain ⟨hlt', hptr', hlen'⟩ := ih req₁ db₁ req' db' hlt₁ hptr₁ h
      refine ⟨hlt', hptr', ?_⟩
      rw [hlen', hlen₁]
      simp only [List.length_cons]
      omega

/-- Claim C3: after every successful `add_state` call the current-state
pointer (`request_state_id`) resolves to the row that was just appended,
which is the last entry of the state history; this holds for every sequence
of successful `add_state` calls starting from a fresh request (one with an
empty history), each call appending exactly one row. -/
theorem add_state_pointer_last (cmds : List (String × String)) (req : Request)
    (db : Db) (req' : Request) (db' : Db)
    (hfresh : req.states = [])
    (h : runAddStates req db cmds = .ok (req', db')) :
    req'.state = req'.states.getLast? ∧ req'.states.length = cmds.length := by
  have hlt : ∀ x ∈ req.states, x.id < db.nextStateId := by
    rw [hfresh]
    intro x hx
    simp at hx
  have hptr : req.state = req.states.getLast? := by
    simp [Request.state, hfresh]
  obtain ⟨_, hptr', hlen'⟩ := runAddStates_inv cmds req db req' db' hlt hptr h
  rw [hfresh] at hlen'
  exact ⟨hptr', by simpa using hlen'⟩

/-- A concrete fresh request (no history yet). -/
def freshRequest : Request :=
  { completeRequest with states := [], request_state_id := none }

/-- The request produced by the concrete two-step run of the C3 witness. -/
def twoStepRequest : Request :=
  { freshRequest with
    states := [⟨1, 1, "a", 1⟩, ⟨2, 2, "b", 2⟩],
    request_state_id := some 2 }

/-- The session produced by the concrete two-step run of the C3 witness. -/
def twoStepDb : Db := ⟨[sampleImage], 1, 3, 3⟩

/-- Witness for C3: a concrete two-step run (`in_progress` then `complete`)
from a fresh request ends with the pointer at the last appended row. -/
theorem add_state_pointer_last_witness :
    runAddStates freshRequest dbAfterComplete
        [("in_progress", "a"), ("complete", "b")] = .ok (twoStepRequest, twoStepDb) ∧
    twoStepRequest.state = twoStepRequest.states.getLast? :=
  ⟨by decide,
   (add_state_pointer_last [("in_progress", "a"), ("complete", "b")]
     freshRequest dbAfterComplete twoStepRequest twoStepDb rfl (by decide)).1⟩

/-- Claim C4: when the wrapped operation always raises the retryable error,
a retry policy with `attempts = 3` invokes the operation exactly 3 times,
emits exactly 2 warning-level and exactly 1 error-level log events, and
re-raises the final failure unchanged (the third invocation's very
exception). -/
theorem retry_exhaustion {ε α : Type} (f : Nat → Except ε α) (es : Nat → ε)
    (hf : ∀ i, f i = .error (es i)) :
    retry 3 true f = ⟨.error (es 2), 3, 2, 1⟩ := by
  have h3 : (3 : Int).toNat = 3 := rfl
  rw [retry, h3, retryLoop, hf 0]
  norm_num
  rw [retryLoop, hf 1]
  norm_num
  rw [retryLoop, hf 2]
  norm_num

/-- Witness for C4: the always-failing operation returning its invocation
index as the error. -/
theorem retry_exhaustion_witness :
    retry 3 true (fun i => (.error i : Except Nat Unit)) = ⟨.error 2, 3, 2, 1⟩ :=
  retry_exhaustion (fun i => .error i) (fun i => i) (fun _ => rfl)

/-- Claim C10: for every attempts value `n ≤ 1` (including zero and negative
values) the retry wrapper still invokes the wrapped operation exactly once:
a successful operation's result is returned, and a failing retryable
operation's exception is re-raised after that single invocation with zero
warning-level log events and only the error-level exhaustion log when a
logger is present. -/
theorem retry_single_attempt {ε α : Type} (attempts : Int) (h : attempts ≤ 1)
    (lg : Bool) (f : Nat → Except ε α) :
    (∀ a, f 0 = .ok a → retry attempts lg f = ⟨.ok a, 1, 0, 0⟩) ∧
    (∀ e, f 0 = .error e →
      retry attempts lg f = ⟨.error e, 1, 0, if lg then 1 else 0⟩) := by
  have hr : attempts.toNat ≤ 1 := by omega
  constructor
  · intro a ha
    rw [retry, retryLoop, ha]
  · intro e he
    rw [retry, retryLoop, he]
    simp [hr]

/-- Witness for C10 at `attempts = 0` with an always-failing operation and a
logger present. -/
theorem retry_single_attempt_witness :
    retry 0 true (fun _ => (.error 7 : Except Nat Unit)) = ⟨.error 7, 1, 0, 1⟩ :=
  (retry_single_attempt 0 (by decide) true _).2 7 rfl

/-- The scan finds the first matching line: every line before it yields no
capture. -/
theorem findFatal_append_some (pre : List String) (line : String)
    (rest : List String) (m : String)
    (hpre : ∀ l ∈ pre, opmFatalCapture l = none)
    (hline : opmFatalCapture line = some m) :
    findFatal (pre ++ line :: rest) = some m := by
  induction pre with
  | nil => simp [findFatal, hline]
  | cons a as ih =>
    have ha : opmFatalCapture a = none := hpre a (by simp)
    simp only [List.cons_append, findFatal, ha]
    exact ih (fun l hl => hpre l (by simp [hl]))

/-- The scan finds nothing when no line yields a capture. -/
theorem findFatal_none (ls : List String)
    (h : ∀ l ∈ ls, opmFatalCapture l = none) : findFatal ls = none := by
  induction ls with
  | nil => rfl
  | cons a as ih =>
    have ha : opmFatalCapture a = none := h a (by simp)
    simp only [findFatal, ha]
    exact ih (fun l hl => h l (by simp [hl]))

/-- Claim C5 (amended): on a non-zero exit of a command whose first argument
is `opm`, the stderr lines are scanned from last to first, and at the first
line matching the fatal-error pattern the call fails with an error whose
message is the supplied failure message — its trailing `'.'` characters
stripped — joined to the extracted message by `": "` (so the error message
ends in the extracted text); if no line matches, or the tool is not `opm`,
the error carries just the failure message, which defaults to
`"An unexpected error occurred"` when none was supplied. -/
theorem run_cmd_fatal_extraction (cmd : List String) (exc_msg : Option String)
    (response : CompletedProcess) (hrc : response.returncode ≠ 0) :
    (∀ pre line rest m,
        (splitlines response.stderr).reverse = pre ++ line :: rest →
        (∀ l ∈ pre, opmFatalCapture l = none) →
        opmFatalCapture line = some m →
        cmd.head? = some "opm" →
        runCmd cmd exc_msg response =
          .error ⟨rstripDots (excMsgOrDefault exc_msg) ++ ": " ++ m⟩) ∧
    ((∀ l ∈ (splitlines response.stderr).reverse, opmFatalCapture l = none) →
        runCmd cmd exc_msg response = .error ⟨excMsgOrDefault exc_msg⟩) ∧
    (cmd.head? ≠ some "opm" →
        runCmd cmd exc_msg response = .error ⟨excMsgOrDefault exc_msg⟩) ∧
    (exc_msg = none → excMsgOrDefault exc_msg = "An unexpected error occurred") := by
  have hrcb : (response.returncode != 0) = true := by simpa using hrc
  refine ⟨?_, ?_, ?_, ?_⟩
  · intro pre line rest m hsplit hpre hline hhead
    rw [runCmd]
    simp only [hrcb, if_true, hhead]
    rw [hsplit, findFatal_append_some pre line rest m hpre hline]
    simp
  · intro hnone
    rw [runCmd]
    simp only [hrcb, if_true]
    rw [findFatal_none _ hnone]
    cases hb : cmd.head? == some "opm" <;> simp [hb]
  · intro hhead
    have hb : (cmd.head? == some "opm") = false := by simpa using hhead
    rw [runCmd]
    simp [hrcb, hb]
  · intro h
    subst h
    rfl

/-- The completed process of the spec's fatal-error scenario: non-zero exit,
two stderr lines, the later one carrying the fatal-error pattern. -/
def fatalResponse : CompletedProcess :=
  ⟨1, "", "first line\nx level=fatal msg=f error=\"bundle already exists\""⟩

/-- Counterexample to C5 as stated: with the supplied failure message
`"Failed to add the bundles."` (ending in a period, as the repository's own
callers supply), the raised message is not the supplied message joined to
the extracted text by `": "` — the code first strips the trailing periods. -/
theorem run_cmd_dot_strip_counterexample :
    runCmd ["opm"] (some "Failed to add the bundles.") fatalResponse =
      .error ⟨"Failed to add the bundles: bundle already exists"⟩ ∧
    "Failed to add the bundles: bundle already exists" ≠
      "Failed to add the bundles." ++ ": " ++ "bundle already exists" :=
  ⟨by decide, by decide⟩

/-- Witness for the amended C5 on the spec's scenario: the reversed stderr
lines put the fatal line first, and the raised message ends in
`": bundle already exists"`. -/
theorem run_cmd_fatal_extraction_witness :
    runCmd ["opm"] (some "Failed to add the bundles.") fatalResponse =
      .error ⟨"Failed to add the bundles: bundle already exists"⟩ :=
  (run_cmd_fatal_extraction ["opm"] (some "Failed to add the bundles.")
      fatalResponse (by decide)).1
    [] "x level=fatal msg=f error=\"bundle already exists\"" ["first line"]
    "bundle already exists" (by decide) (by simp) (by decide) rfl

/-- Whether a fallible computation succeeded. -/
def exceptIsOk {ε α : Type} : Except ε α → Bool
  | .ok _ => true
  | .error _ => false

/-- A payload supplying both `from_index` and a non-empty `add_arches`
(together with valid `bundles` and `binary_image`). -/
def bothPayload : RequestPayload :=
  { bundles := some (.list [.str "quay.io/ns/bundle:v1"]),
    binary_image := some (.str "quay.io/ns/opm:v1"),
    from_index := some (.str "quay.io/ns/index:v1"),
    add_arches := some (.list [.str "amd64"]),
    cnr_token := none }

/-- Counterexample to C2 as stated: a payload with both `from_index` and a
non-empty `add_arches` present is accepted — construction succeeds instead
of failing with `ValidationError`. -/
theorem from_json_both_present_counterexample :
    pyGetTruthy bothPayload.from_index = true ∧
    pyGetTruthy bothPayload.add_arches = true ∧
    exceptIsOk (Request.from_json bothPayload none emptyDb) = true :=
  ⟨rfl, rfl, by decide⟩

/-- Claim C2 (amended): construction from untrusted input requires at least
one of `from_index` or a non-empty `add_arches` to be present: if neither is
present (given the required keys are supplied) it fails with
`ValidationError`; a payload supplying both is accepted. -/
theorem from_json_requires_index_or_arches (kwargs : RequestPayload)
    (u : Option String) (db : Db)
    (hb : kwargs.bundles.isNone = false) (hbi : kwargs.binary_image.isNone = false)
    (hfi : pyGetTruthy kwargs.from_index = false)
    (haa : pyGetTruthy kwargs.add_arches = false) :
    Request.from_json kwargs u db =
      .error ⟨"One of \"from_index\" or \"add_arches\" must be specified"⟩ := by
  rw [Request.from_json]
  simp [hb, hbi, hfi, haa]

/-- A payload with valid required keys and neither `from_index` nor
`add_arches`. -/
def neitherPayload : RequestPayload :=
  { bundles := some (.list [.str "quay.io/ns/bundle:v1"]),
    binary_image := some (.str "quay.io/ns/opm:v1"),
    from_index := none, add_arches := none, cnr_token := none }

/-- Witness for the amended C2 on a concrete payload lacking both. -/
theorem from_json_requires_index_or_arches_witness :
    Request.from_json neitherPayload none emptyDb =
      .error ⟨"One of \"from_index\" or \"add_arches\" must be specified"⟩ :=
  from_json_requires_index_or_arches neitherPayload none emptyDb rfl rfl rfl rfl

/-- Claim C9: two construction payloads that both pass validation and differ
only in `add_arches` produce identical results — the same `Request` and the
same session (so `add_arches` is validated and then discarded: never attached
to the request, its images, or the catalog). -/
theorem from_json_ignores_add_arches (p₁ p₂ : RequestPayload) (u : Option String)
    (db : Db)
    (hb : p₁.bundles = p₂.bundles) (hbi : p₁.binary_image = p₂.binary_image)
    (hfi : p₁.from_index = p₂.from_index) (hct : p₁.cnr_token = p₂.cnr_token)
    (h₁ : exceptIsOk (Request.from_json p₁ u db) = true)
    (h₂ : exceptIsOk (Request.from_json p₂ u db) = true) :
    Request.from_json p₁ u db = Request.from_json p₂ u db := by
  unfold Request.from_json
  rw [Request.from_json] at h₁
  rw [Request.from_json] at h₂
  rw [hb, hbi, hfi, hct] at h₁ ⊢
  split_ifs at h₁ h₂ ⊢ <;>
    simp_all [exceptIsOk]

/-- The C9 companion payload: `bothPayload` with a different `add_arches`. -/
def otherArchesPayload : RequestPayload :=
  { bothPayload with add_arches := some (.list [.str "arm64", .str "s390x"]) }

/-- Witness for C9 on two concrete payloads differing only in `add_arches`. -/
theorem from_json_ignores_add_arches_witness :
    Request.from_json bothPayload none emptyDb =
      Request.from_json otherArchesPayload none emptyDb :=
  from_json_ignores_add_arches bothPayload otherArchesPayload none emptyDb
    rfl rfl rfl rfl (by decide) (by decide)

/-- A state row with a valid enum integer renders to the explicit
three-field json object. -/
theorem _state_to_json_of_valid (rs : RequestState)
    (h : rs.state = 1 ∨ rs.state = 2 ∨ rs.state = 3) :
    ∃ nm, RequestStateMapping.name rs.state = some nm ∧
      _state_to_json rs = some [("state", .s nm),
        ("state_reason", .s rs.state_reason),
        ("updated", .s (toString rs.updated ++ "Z"))] := by
  rcases h with h | h | h
  · exact ⟨"in_progress", by simp [RequestStateMapping.name, h],
      by simp [_state_to_json, RequestStateMapping.name, h]⟩
  · exact ⟨"complete", by simp [RequestStateMapping.name, h],
      by simp [_state_to_json, RequestStateMapping.name, h]⟩
  · exact ⟨"failed", by simp [RequestStateMapping.name, h],
      by simp [_state_to_json, RequestStateMapping.name, h]⟩

/-- When every state row renders, the history rendering is the element-wise
rendering in order. -/
theorem _state_list_to_json_eq_filterMap (l : List RequestState)
    (h : ∀ x ∈ l, (_state_to_json x).isSome = true) :
    _state_list_to_json l = some (l.filterMap _state_to_json) := by
  induction l with
  | nil => rfl
  | cons a as ih =>
    obtain ⟨b, hb⟩ := Option.isSome_iff_exists.mp (h a (by simp))
    rw [_state_list_to_json, hb, ih (fun x hx => h x (by simp [hx]))]
    simp [List.filterMap_cons, hb]

/-- Claim C6: for every request with a non-empty state history (whose rows
carry valid enum integers, as every reachable history does), the verbose
projection lists the rendered history entries in reverse append order under
`state_history`, its entry 0 is the most recently appended state's
rendering, and that newest entry's `state`, `state_reason` and `updated`
fields are also merged into the top-level flat fields of the output. -/
theorem to_json_verbose_history (req : Request) (hne : req.states ≠ [])
    (hvalid : ∀ rs ∈ req.states, rs.state = 1 ∨ rs.state = 2 ∨ rs.state = 3) :
    ∃ rv stjs last nm,
      req.states.getLast? = some last ∧
      RequestStateMapping.name last.state = some nm ∧
      _state_list_to_json req.states = some stjs ∧
      req.to_json true = some rv ∧
      rv.lookup "state_history" = some (.arr (stjs.reverse.map JVal.obj)) ∧
      stjs.reverse.head? = some [("state", .s nm),
        ("state_reason", .s last.state_reason),
        ("updated", .s (toString last.updated ++ "Z"))] ∧
      rv.lookup "state" = some (.s nm) ∧
      rv.lookup "state_reason" = some (.s last.state_reason) ∧
      rv.lookup "updated" = some (.s (toString last.updated ++ "Z")) := by
  have hlast : req.states.getLast? = some (req.states.getLast hne) :=
    List.getLast?_eq_getLast_of_ne_nil hne
  obtain ⟨nm, hnm, hpairs⟩ :=
    _state_to_json_of_valid (req.states.getLast hne)
      (hvalid _ (List.getLast_mem hne))
  have hall : ∀ x ∈ req.states, (_state_to_json x).isSome = true := by
    intro x hx
    obtain ⟨nm', _, hp⟩ := _state_to_json_of_valid x (hvalid x hx)
    simp [hp]
  have hjson := _state_list_to_json_eq_filterMap req.states hall
  have hdecomp : req.states.dropLast ++ [req.states.getLast hne] = req.states :=
    List.dropLast_append_getLast? _ (Option.mem_def.mpr hlast)
  have hstjs_last : (req.states.filterMap _state_to_json).getLast? =
      some [("state", JVal.s nm),
        ("state_reason", JVal.s (req.states.getLast hne).state_reason),
        ("updated", JVal.s (toString (req.states.getLast hne).updated ++ "Z"))] := by
    conv_lhs => rw [← hdecomp]
    rw [List.filterMap_append]
    simp [hpairs]
  have hhead : (req.states.filterMap _state_to_json).reverse.head? =
      some [("state", JVal.s nm),
        ("state_reason", JVal.s (req.states.getLast hne).state_reason),
        ("updated", JVal.s (toString (req.states.getLast hne).updated ++ "Z"))] := by
    rw [List.head?_reverse]
    exact hstjs_last
  refine ⟨pyDictUpdate
      (requestFlatFields req ++
        [("state_history", JVal.arr
          ((req.states.filterMap _state_to_json).reverse.map JVal.obj))])
      [("state", JVal.s nm),
       ("state_reason", JVal.s (req.states.getLast hne).state_reason),
       ("updated", JVal.s (toString (req.states.getLast hne).updated ++ "Z"))],
    req.states.filterMap _state_to_json, req.states.getLast hne, nm,
    hlast, hnm, hjson, ?_, ?_, ?_, ?_, ?_, ?_⟩
  · simp only [Request.to_json, hjson, hhead, if_true]
  · simp [pyDictUpdate, requestFlatFields, List.lookup]
  · rw [List.head?_reverse]
    exact hstjs_last
  · simp [pyDictUpdate, requestFlatFields, List.lookup]
  · simp [pyDictUpdate, requestFlatFields, List.lookup]
  · simp [pyDictUpdate, requestFlatFields, List.lookup]

/-- Witness for C6 on the concrete two-state request of the C3 witness. -/
theorem to_json_verbose_history_witness :
    ∃ rv stjs last nm,
      twoStepRequest.states.getLast? = some last ∧
      RequestStateMapping.name last.state = some nm ∧
      _state_list_to_json twoStepRequest.states = some stjs ∧
      twoStepRequest.to_json true = some rv ∧
      rv.lookup "state_history" = some (.arr (stjs.reverse.map JVal.obj)) ∧
      stjs.reverse.head? = some [("state", .s nm),
        ("state_reason", .s last.state_reason),
        ("updated", .s (toString last.updated ++ "Z"))] ∧
      rv.lookup "state" = some (.s nm) ∧
      rv.lookup "state_reason" = some (.s last.state_reason) ∧
      rv.lookup "updated" = some (.s (toString last.updated ++ "Z")) :=
  to_json_verbose_history twoStepRequest (by decide) (by decide)

end Iib
